import Mathlib

/-!
Verification of the PDF extraction orchestration pipeline of the
Web-Interactive-Agent repository.

The authoritative implementation is the PdfExtractorScreen component
(the copy embedded in src/services/pdfService.ts, lines 581-1180):
its extractText entry point, the handleWebViewMessage inbound decoder,
the WebView worker script produced by createPdfExtractorHtml (with its
BATCH_SIZE = 3 flush loop), and the preparation-timeout effects.
The command cache of src/services/aiService.ts (processCommand) is
modelled separately at the end of the definitions.

Conventions of the embedding:
* React useState cells become fields of ScreenState; a setter call is a
  record update.
* A JavaScript value that may be undefined is an Option.
* JSON.parse of an inbound WebView payload either throws (Payload.malformed)
  or yields an object read through its fields (Payload.json).  The
  JavaScript coercion prevText + undefined = prevText ++ "undefined" is kept.
* Asynchronous file reads are passed in as an Except value (the resolved
  or rejected promise).
-/

namespace WebAgent

/-- The React state cells of PdfExtractorScreen that the extraction
pipeline touches (pdfService.ts lines 604-613). -/
structure ScreenState where
  extractedText : String
  isLoading : Bool
  error : Option String
  currentPage : Option Nat
  totalPages : Option Nat
  showWebView : Bool
  pdfUri : Option String
  preparationTime : Nat
  deriving Repr, DecidableEq

/-- The initial state of the component (useState initializers,
pdfService.ts lines 604-613). -/
def initialState : ScreenState :=
  { extractedText := ""
    isLoading := false
    error := none
    currentPage := some 0
    totalPages := some 0
    showWebView := false
    pdfUri := none
    preparationTime := 0 }

/-- An inbound WebView payload after the JSON.parse attempt in
handleWebViewMessage (pdfService.ts line 688): either the parse threw,
or it produced an object whose fields are read by name (absent fields
are undefined, hence Option). -/
inductive Payload where
  | malformed
  | json (tag : String) (totalPages currentPage : Option Nat)
      (text : Option String) (isFinal : Option Bool) (errMsg : Option String)
  deriving Repr, DecidableEq

/-- handleWebViewMessage (pdfService.ts lines 685-727): dispatch on the
type field of the parsed payload; a JSON.parse failure is caught and
reported as a generic extraction failure; a parsed payload whose type
matches no branch falls through with no effect. -/
def handleWebViewMessage (p : Payload) (s : ScreenState) : ScreenState :=
  match p with
  | .malformed =>
      { s with error := some "Failed to extract text from PDF."
               showWebView := false
               isLoading := false }
  | .json tag tp cp tx fin er =>
      if tag = "pdfInfo" then
        { s with totalPages := tp }
      else if tag = "pdfProgress" then
        { s with currentPage := cp, totalPages := tp }
      else if tag = "pdfPartialText" then
        let s1 := { s with extractedText := s.extractedText ++ tx.getD "undefined" }
        if fin = some true then
          { s1 with showWebView := false, isLoading := false }
        else
          s1
      else if tag = "pdfText" then
        { s with extractedText := tx.getD "undefined"
                 showWebView := false
                 isLoading := false }
      else if tag = "pdfError" then
        { s with error := er, showWebView := false, isLoading := false }
      else
        s

/-- Message-processing step, folding inbound payloads into the screen
state in arrival order. -/
def mstep (s : ScreenState) (p : Payload) : ScreenState :=
  handleWebViewMessage p s

/-- The text content of one page as the worker sees it: the str fields
of the items of getTextContent. -/
abbrev Page := List String

/-- pageText (pdfService.ts lines 896-898): textItems.join(' ') + a
newline, accumulated into the worker buffer. -/
def pageText (pg : Page) : String :=
  String.intercalate " " pg ++ "\n"

/-- BATCH_SIZE (pdfService.ts line 876). -/
def BATCH_SIZE : Nat := 3

/-- The flush condition of the worker loop (pdfService.ts line 901):
i % BATCH_SIZE === 0 || i === totalPages. -/
def emitsFlush (i total : Nat) : Bool :=
  i % BATCH_SIZE == 0 || i == total

/-- The worker loop (pdfService.ts lines 877-920).  Page i is processed
with buffer buf: a pdfProgress message is sent first, the page text is
appended to the buffer, and when the flush condition holds a
pdfPartialText message carrying the buffer is sent, the buffer being
cleared unless the flush is the final one. -/
def workerRun : Nat → Nat → String → List Page → List Payload
  | _, _, _, [] => []
  | i, total, buf, pg :: rest =>
      let buf' := buf ++ pageText pg
      let progressMsg := Payload.json "pdfProgress" (some total) (some i) none none none
      if emitsFlush i total then
        progressMsg ::
          Payload.json "pdfPartialText" none none (some buf') (some (i == total)) none ::
          workerRun (i + 1) total (if i == total then buf' else "") rest
      else
        progressMsg :: workerRun (i + 1) total buf' rest

/-- The full message trace of one worker run (pdfService.ts lines
860-920): a pdfInfo message carrying pdf.numPages, then the page loop
starting at page 1 with an empty buffer. -/
def workerTrace (pages : List Page) : List Payload :=
  Payload.json "pdfInfo" (some pages.length) none none none none ::
    workerRun 1 pages.length "" pages

/-- The full-batch extraction result for the same pages
(extractTextFromPdf, pdfService.ts lines 32-38, and the pdfText path of
the alternate worker): per page, textItems.join(' ') + a newline,
concatenated in page order. -/
def fullBatchText (pages : List Page) : String :=
  pages.foldl (fun acc pg => acc ++ pageText pg) ""

/-- The screen state right after extractText has set up a PDF session
(pdfService.ts lines 668-677): cleared text/pages/error, loading, the
WebView worker shown. -/
def readyState : ScreenState :=
  { extractedText := ""
    isLoading := true
    error := none
    currentPage := some 0
    totalPages := some 0
    showWebView := true
    pdfUri := some "file.pdf"
    preparationTime := 0 }

/-- The final screen state after a chunked worker run is absorbed. -/
def chunkedFinal (pages : List Page) : ScreenState :=
  (workerTrace pages).foldl mstep readyState

/-- One elapsed second of the preparation phase (the two effects of
pdfService.ts lines 957-998 discretized to one-second steps).  While
isLoading, showWebView and totalPages === 0 hold, the interval
increments preparationTime; once preparationTime exceeds 30 the armed
timeout fires one second later: the error is set and the session is
torn down.  Outside the preparation guard, preparationTime resets to 0
and no timer is pending. -/
def tick (s : ScreenState) : ScreenState :=
  if s.isLoading ∧ s.showWebView ∧ s.totalPages = some 0 then
    if s.preparationTime > 30 then
      { s with error := some "PDF preparation timed out. The file may be too large or complex."
               showWebView := false
               isLoading := false }
    else
      { s with preparationTime := s.preparationTime + 1 }
  else
    { s with preparationTime := 0 }

/-- The guard under which the next second fires the preparation
timeout (pdfService.ts line 983). -/
def firesOn (s : ScreenState) : Bool :=
  s.isLoading && s.showWebView && (s.totalPages == some 0)
    && decide (s.preparationTime > 30)

/-- A session event: one elapsed second, or one inbound worker
payload. -/
inductive Event where
  | second
  | msg (p : Payload)
  deriving Repr, DecidableEq

/-- Session small-step over events. -/
def estep (s : ScreenState) (e : Event) : ScreenState :=
  match e with
  | .second => tick s
  | .msg p => handleWebViewMessage p s

/-- Number of preparation-timeout firings along an event trace. -/
def fireCount : ScreenState → List Event → Nat
  | _, [] => 0
  | s, e :: es =>
      (match e with
       | .second => if firesOn s then 1 else 0
       | .msg _ => 0) + fireCount (estep s e) es

/-- An immutable document descriptor as selected by the picker. -/
structure Document where
  uri : String
  mimeType : String
  name : String
  sizeBytes : Nat
  deriving Repr, DecidableEq

/-- A primitive React state-setter call made by extractText or
extractTextFromTxt. -/
inductive Upd where
  | setExtractedText (v : String)
  | setCurrentPage (v : Option Nat)
  | setTotalPages (v : Option Nat)
  | setError (v : Option String)
  | setIsLoading (v : Bool)
  | setShowWebView (v : Bool)
  | setPdfUri (v : Option String)
  deriving Repr, DecidableEq

/-- Apply one setter call to the screen state. -/
def applyUpd (s : ScreenState) (u : Upd) : ScreenState :=
  match u with
  | .setExtractedText v => { s with extractedText := v }
  | .setCurrentPage v => { s with currentPage := v }
  | .setTotalPages v => { s with totalPages := v }
  | .setError v => { s with error := v }
  | .setIsLoading v => { s with isLoading := v }
  | .setShowWebView v => { s with showWebView := v }
  | .setPdfUri v => { s with pdfUri := v }

/-- extractTextFromTxt (pdfService.ts lines 646-657): set loading, read
the file (the resolved or rejected read is passed in), store the text
or the read failure, and clear loading in the finally clause. -/
def extractTextFromTxtUpds (readResult : Except String String) : List Upd :=
  Upd.setIsLoading true ::
    (match readResult with
     | .ok text => [Upd.setExtractedText text, Upd.setIsLoading false]
     | .error e =>
         [Upd.setError (some ("Failed to read text file: " ++ e)),
          Upd.setIsLoading false])

/-- extractText (pdfService.ts lines 659-683) for a non-null,
non-canceled document: reset text, pages and error, then dispatch on
the mime type — PDF spawns the WebView worker, plain text reads the
file synchronously, anything else records the unsupported-type
error. -/
def extractTextUpds (doc : Document) (readResult : Except String String) : List Upd :=
  Upd.setExtractedText "" ::
    Upd.setCurrentPage (some 0) ::
    Upd.setTotalPages (some 0) ::
    Upd.setError none ::
    (if doc.mimeType = "application/pdf" then
       [Upd.setIsLoading true, Upd.setPdfUri (some doc.uri),
        Upd.setShowWebView true]
     else if doc.mimeType = "text/plain" then
       extractTextFromTxtUpds readResult
     else
       [Upd.setError (some ("Unsupported file type: " ++ doc.mimeType))])

/-- The final screen state produced by one extractText call. -/
def extractText (doc : Document) (readResult : Except String String)
    (s : ScreenState) : ScreenState :=
  (extractTextUpds doc readResult).foldl applyUpd s

/-- Every screen state passed through during one extractText call
(including the starting one). -/
def extractStates (doc : Document) (readResult : Except String String)
    (s : ScreenState) : List ScreenState :=
  List.scanl applyUpd s (extractTextUpds doc readResult)

/-- JavaScript String.prototype.toLowerCase, character by character. -/
def jsToLower (s : String) : String :=
  ⟨s.data.map Char.toLower⟩

/-- JavaScript String.prototype.endsWith. -/
def jsEndsWith (s t : String) : Bool :=
  s.data.reverse.take t.data.length == t.data.reverse

/-- extractTextFromDocument (pdfService.ts lines 52-60): a uri whose
lowercase form ends in .pdf is delegated to the PDF extractor (its
result is passed in); every other document type rejects with the
unsupported-type error before anything else runs. -/
def extractTextFromDocument (uri : String)
    (pdfResult : Except String String) : Except String String :=
  if jsEndsWith (jsToLower uri) ".pdf" then
    pdfResult
  else
    .error "Unsupported document type. Only PDF files are currently supported."

/-- The isFinal flags of the pdfPartialText messages of a trace, in
emission order. -/
def chunkFlags (msgs : List Payload) : List Bool :=
  msgs.filterMap (fun p =>
    match p with
    | .json "pdfPartialText" _ _ _ fin _ => fin
    | _ => none)

/-- A concrete PDF document descriptor. -/
def pdfDoc : Document :=
  { uri := "file.pdf", mimeType := "application/pdf", name := "file.pdf",
    sizeBytes := 1000 }

/-- A concrete plain-text document descriptor. -/
def txtDoc : Document :=
  { uri := "notes.txt", mimeType := "text/plain", name := "notes.txt",
    sizeBytes := 10 }

/-- One entry of the in-memory command cache of
src/services/aiService.ts.  The result payload is opaque to the cache
logic, so it is a type parameter. -/
structure CachedCommand (α : Type) where
  input : String
  result : α
  timestamp : Nat
  deriving Repr, DecidableEq

/-- The cache lookup of processCommand (aiService.ts line 55):
commandCache.find on lowercase equality of the full input string. -/
def cacheLookup {α : Type} (cache : List (CachedCommand α)) (input : String) :
    Option (CachedCommand α) :=
  cache.find? (fun e => jsToLower e.input == jsToLower input)

/-- The cache update performed by one processCommand call (aiService.ts
lines 53-89): on a hit the cache is untouched; on a miss the fresh
entry is pushed and, when the length exceeds 100, slice(-100) keeps
only the last 100 entries. -/
def processCommandCache {α : Type} (cache : List (CachedCommand α))
    (input : String) (result : α) (now : Nat) : List (CachedCommand α) :=
  match cacheLookup cache input with
  | some _ => cache
  | none =>
      let c := cache ++ [⟨input, result, now⟩]
      if c.length > 100 then c.drop (c.length - 100) else c

/-! ## Helper lemmas -/

lemma mstep_progress (s : ScreenState) (tp cp : Option Nat) :
    mstep s (.json "pdfProgress" tp cp none none none)
      = { s with currentPage := cp, totalPages := tp } := rfl

lemma mstep_info (s : ScreenState) (tp : Option Nat) :
    mstep s (.json "pdfInfo" tp none none none none)
      = { s with totalPages := tp } := rfl

lemma mstep_chunk_final (s : ScreenState) (tx : String) :
    mstep s (.json "pdfPartialText" none none (some tx) (some true) none)
      = { s with extractedText := s.extractedText ++ tx
                 showWebView := false
                 isLoading := false } := rfl

lemma mstep_chunk_notfinal (s : ScreenState) (tx : String) :
    mstep s (.json "pdfPartialText" none none (some tx) (some false) none)
      = { s with extractedText := s.extractedText ++ tx } := rfl

lemma mstep_chunk_totalPages (s : ScreenState) (tx : Option String)
    (fin : Option Bool) :
    (mstep s (.json "pdfPartialText" none none tx fin none)).totalPages
      = s.totalPages := by
  rcases fin with _ | b
  · rfl
  · cases b <;> rfl

lemma mstep_chunk_currentPage (s : ScreenState) (tx : Option String)
    (fin : Option Bool) :
    (mstep s (.json "pdfPartialText" none none tx fin none)).currentPage
      = s.currentPage := by
  rcases fin with _ | b
  · rfl
  · cases b <;> rfl

lemma head_of_scanl {α β : Type} (f : β → α → β) (b : β) (l : List α) :
    (List.scanl f b l).head? = some b := by
  cases l <;> simp [List.scanl_nil, List.scanl_cons]

/-- The single fold invariant of the worker loop: processing the
messages of pages i..(i + pages.length - 1), where the last of these
indices is the total page count, extends the accumulated text by the
pending buffer and all remaining page texts. -/
lemma foldl_mstep_workerRun (pages : List Page) :
    ∀ (i total : Nat) (buf : String) (s : ScreenState),
      i + pages.length = total + 1 →
      ((workerRun i total buf pages).foldl mstep s).extractedText
        = if pages = [] then s.extractedText
          else pages.foldl (fun a pg => a ++ pageText pg) (s.extractedText ++ buf) := by
  induction pages with
  | nil => intro i total buf s h; simp [workerRun]
  | cons pg rest ih =>
      intro i total buf s h
      simp only [List.length_cons] at h
      rw [if_neg (List.cons_ne_nil pg rest)]
      by_cases hr : rest = []
      · subst hr
        simp only [List.length_nil] at h
        have hi : i = total := by omega
        subst hi
        simp only [workerRun, emitsFlush, Bool.or_true, if_true,
          beq_self_eq_true]
        simp [List.foldl, mstep_progress, mstep_chunk_final, String.append_assoc]
      · have hlt : i < total := by
          have := List.length_pos.mpr hr
          omega
        have hib : (i == total) = false := by
          simp [Nat.ne_of_lt hlt]
        by_cases hfl : emitsFlush i total
        · simp only [workerRun, hfl, if_true, hib, Bool.false_eq_true, if_false]
          simp only [List.foldl, mstep_progress, mstep_chunk_notfinal]
          rw [ih (i + 1) total "" _ (by omega), if_neg hr]
          simp [String.append_empty, String.append_assoc]
        · simp only [workerRun, hfl, Bool.false_eq_true, if_false]
          simp only [List.foldl, mstep_progress]
          rw [ih (i + 1) total (buf ++ pageText pg) _ (by omega), if_neg hr]
          simp [String.append_assoc]

/-- Non-decreasing currentPage snapshots along the worker loop, given
that the state entering page i has not recorded a page beyond i. -/
lemma chain_currentPage_workerRun (pages : List Page) :
    ∀ (i total : Nat) (buf : String) (s : ScreenState),
      s.currentPage.getD 0 ≤ i →
      List.Chain' (· ≤ ·)
        ((List.scanl mstep s (workerRun i total buf pages)).map
          (fun st => st.currentPage.getD 0)) := by
  induction pages with
  | nil =>
      intro i total buf s _
      simp [workerRun, List.scanl_nil]
  | cons pg rest ih =>
      intro i total buf s hcp
      by_cases hfl : emitsFlush i total
      · simp only [workerRun, hfl, if_true, List.scanl_cons, List.singleton_append,
          List.map_cons]
        refine List.chain'_cons'.mpr ⟨?_, ?_⟩
        · intro h hh
          simp [List.head?_map, head_of_scanl] at hh
          subst hh
          simp [mstep_progress, hcp]
        · refine List.chain'_cons'.mpr ⟨?_, ?_⟩
          · intro h hh
            simp [List.head?_map, head_of_scanl] at hh
            subst hh
            simp [mstep_progress, mstep_chunk_currentPage]
          · refine ih (i + 1) total _ _ ?_
            simp [mstep_chunk_currentPage, mstep_progress]
      · simp only [workerRun, hfl, Bool.false_eq_true, if_false, List.scanl_cons,
          List.singleton_append, List.map_cons]
        refine List.chain'_cons'.mpr ⟨?_, ?_⟩
        · intro h hh
          simp [List.head?_map, head_of_scanl] at hh
          subst hh
          simp [mstep_progress, hcp]
        · refine ih (i + 1) total _ _ ?_
          simp [mstep_progress]

/-- Every later state of the worker loop keeps the totalPages value it
entered with: all pdfProgress messages of the loop carry the same
total, and no other loop message touches totalPages. -/
lemma totalPages_scanl_workerRun (pages : List Page) :
    ∀ (i total : Nat) (buf : String) (s : ScreenState),
      s.totalPages = some total →
      ∀ s' ∈ List.scanl mstep s (workerRun i total buf pages),
        s'.totalPages = some total := by
  induction pages with
  | nil =>
      intro i total buf s hs s' hmem
      simp [workerRun, List.scanl_nil] at hmem
      simpa [hmem] using hs
  | cons pg rest ih =>
      intro i total buf s hs s' hmem
      by_cases hfl : emitsFlush i total
      · simp only [workerRun, hfl, if_true, List.scanl_cons, List.singleton_append,
          List.mem_cons] at hmem
        rcases hmem with h1 | h2 | hmem
        · simpa [h1] using hs
        · simp [h2, mstep_progress]
        · refine ih (i + 1) total _ _ ?_ s' hmem
          simp [mstep_chunk_totalPages, mstep_progress]
      · simp only [workerRun, hfl, Bool.false_eq_true, if_false, List.scanl_cons,
          List.singleton_append, List.mem_cons] at hmem
        rcases hmem with h1 | hmem
        · simpa [h1] using hs
        · refine ih (i + 1) total _ _ ?_ s' hmem
          simp [mstep_progress]

/-- Same fact for the fold (the final state of the loop). -/
lemma totalPages_foldl_workerRun (pages : List Page) :
    ∀ (i total : Nat) (buf : String) (s : ScreenState),
      s.totalPages = some total →
      ((workerRun i total buf pages).foldl mstep s).totalPages = some total := by
  induction pages with
  | nil => intro i total buf s hs; simpa [workerRun]
  | cons pg rest ih =>
      intro i total buf s hs
      by_cases hfl : emitsFlush i total
      · simp only [workerRun, hfl, if_true, List.foldl]
        refine ih (i + 1) total _ _ ?_
        simp [mstep_chunk_totalPages, mstep_progress]
      · simp only [workerRun, hfl, Bool.false_eq_true, if_false, List.foldl]
        refine ih (i + 1) total _ _ ?_
        simp [mstep_progress]

/-- Shared corollary: the chunked accumulation over a full worker trace
reconstructs exactly the full-batch text. -/
lemma chunkedFinal_extractedText (pages : List Page) :
    (chunkedFinal pages).extractedText = fullBatchText pages := by
  unfold chunkedFinal workerTrace
  rw [List.foldl_cons]
  have h1 : mstep readyState (.json "pdfInfo" (some pages.length) none none none none)
      = { readyState with totalPages := some pages.length } := rfl
  rw [h1, foldl_mstep_workerRun pages 1 pages.length "" _ (by omega)]
  by_cases hp : pages = []
  · subst hp
    simp [fullBatchText, readyState]
  · rw [if_neg hp]
    rfl




lemma chunkFlags_cons_progress (msgs : List Payload) (tp cp : Option Nat) :
    chunkFlags (Payload.json "pdfProgress" tp cp none none none :: msgs)
      = chunkFlags msgs := rfl

lemma chunkFlags_cons_info (msgs : List Payload) (tp : Option Nat) :
    chunkFlags (Payload.json "pdfInfo" tp none none none none :: msgs)
      = chunkFlags msgs := rfl

lemma chunkFlags_cons_chunk (msgs : List Payload) (tx : Option String) (b : Bool) :
    chunkFlags (Payload.json "pdfPartialText" none none tx (some b) none :: msgs)
      = b :: chunkFlags msgs := rfl

/-- The isFinal flags emitted by the worker loop are exactly one flag
per flushing page index, true only at the total page index. -/
lemma chunkFlags_workerRun (pages : List Page) :
    ∀ (i total : Nat) (buf : String),
      chunkFlags (workerRun i total buf pages)
        = ((List.range' i pages.length).filter (fun j => emitsFlush j total)).map
            (fun j => j == total) := by
  induction pages with
  | nil => intro i total buf; simp [workerRun, chunkFlags]
  | cons pg rest ih =>
      intro i total buf
      rw [List.length_cons, List.range'_succ i rest.length 1, List.filter_cons]
      by_cases hfl : emitsFlush i total
      · simp only [workerRun, hfl, if_true]
        rw [chunkFlags_cons_progress, chunkFlags_cons_chunk, ih]
        simp [hfl]
      · simp only [workerRun, hfl, Bool.false_eq_true, if_false]
        rw [chunkFlags_cons_progress, ih]

lemma handle_isLoading_false (p : Payload) (s : ScreenState)
    (h : s.isLoading = false) : (handleWebViewMessage p s).isLoading = false := by
  cases p with
  | malformed => rfl
  | json tag tp cp tx fin er =>
      simp only [handleWebViewMessage]
      split_ifs <;> simp [h]

lemma tick_isLoading_false (s : ScreenState) (h : s.isLoading = false) :
    (tick s).isLoading = false := by
  simp [tick, h]

lemma estep_isLoading_false (s : ScreenState) (e : Event)
    (h : s.isLoading = false) : (estep s e).isLoading = false := by
  cases e with
  | second => exact tick_isLoading_false s h
  | msg p => exact handle_isLoading_false p s h

lemma firesOn_false_of_notLoading (s : ScreenState) (h : s.isLoading = false) :
    firesOn s = false := by
  simp [firesOn, h]

lemma fireCount_zero_of_notLoading (es : List Event) :
    ∀ (s : ScreenState), s.isLoading = false → fireCount s es = 0 := by
  induction es with
  | nil => intro s _; rfl
  | cons e es ih =>
      intro s h
      cases e with
      | second =>
          simp only [fireCount, firesOn_false_of_notLoading s h,
            Bool.false_eq_true, if_false, Nat.zero_add]
          exact ih _ (estep_isLoading_false s _ h)
      | msg p =>
          simp only [fireCount, Nat.zero_add]
          exact ih _ (estep_isLoading_false s _ h)

lemma tick_isLoading_false_of_fires (s : ScreenState) (h : firesOn s = true) :
    (tick s).isLoading = false := by
  simp only [firesOn, Bool.and_eq_true, decide_eq_true_eq, beq_iff_eq] at h
  obtain ⟨⟨⟨h1, h2⟩, h3⟩, h4⟩ := h
  simp [tick, h1, h2, h3, h4]

lemma fireCount_le_one (es : List Event) :
    ∀ (s : ScreenState), fireCount s es ≤ 1 := by
  induction es with
  | nil => intro s; simp [fireCount]
  | cons e es ih =>
      intro s
      cases e with
      | second =>
          by_cases hf : firesOn s
          · simp only [fireCount, hf, if_true]
            rw [fireCount_zero_of_notLoading es _ ?_]
            · exact tick_isLoading_false_of_fires s hf
          · simp only [fireCount, hf, Bool.false_eq_true, if_false]
            exact Nat.le_trans (Nat.le_of_eq (Nat.zero_add _)) (ih _)
      | msg p =>
          simp only [fireCount, Nat.zero_add]
          exact ih _

lemma fireCount_append (xs ys : List Event) :
    ∀ (s : ScreenState),
      fireCount s (xs ++ ys) = fireCount s xs + fireCount (xs.foldl estep s) ys := by
  induction xs with
  | nil => intro s; simp [fireCount]
  | cons e xs ih =>
      intro s
      simp only [List.cons_append, fireCount, List.foldl_cons, List.append_eq]
      rw [ih (estep s e)]
      omega

lemma fireCount_ready_32 :
    fireCount readyState (List.replicate 32 Event.second) = 1 := by decide

lemma after32_notLoading :
    ((List.replicate 32 Event.second).foldl estep readyState).isLoading = false := by
  decide

/-- The accumulated full-batch fold never shrinks the text. -/
lemma length_le_foldl_pageText (pages : List Page) :
    ∀ (acc : String),
      acc.length ≤ (pages.foldl (fun a pg => a ++ pageText pg) acc).length := by
  induction pages with
  | nil => intro acc; simp
  | cons pg rest ih =>
      intro acc
      refine le_trans ?_ (ih (acc ++ pageText pg))
      simp [String.length_append]

/-- Each page contributes at least its newline, so a nonempty document
yields nonempty text. -/
lemma fullBatchText_ne_empty (pages : List Page) (h : pages ≠ []) :
    fullBatchText pages ≠ "" := by
  rcases pages with _ | ⟨pg, rest⟩
  · simp at h
  · intro hC
    have h1 : 1 ≤ (fullBatchText (pg :: rest)).length := by
      unfold fullBatchText
      simp only [List.foldl]
      refine le_trans ?_ (length_le_foldl_pageText rest ("" ++ pageText pg))
      simp only [String.length_append, pageText]
      have h2 : ("\n" : String).length = 1 := rfl
      omega
    rw [hC] at h1
    simp at h1

end WebAgent

namespace WebAgent

/-- C1: for every document extracted via the chunked path (the worker's
pdfPartialText messages absorbed by appending in arrival order, the
worker clearing its buffer after each non-final flush), the ordered
concatenation of all chunks equals the text the full-batch pdfText
(FullText) path would deliver for the same pages. -/
theorem chunked_path_eq_fulltext_path (pages : List Page) :
    (chunkedFinal pages).extractedText
      = (mstep readyState
          (.json "pdfText" none none (some (fullBatchText pages)) none none)).extractedText := by
  have hfull : (mstep readyState
      (.json "pdfText" none none (some (fullBatchText pages)) none none)).extractedText
        = fullBatchText pages := rfl
  rw [hfull, chunkedFinal_extractedText]

/-- C5: for every session driven by a worker trace, the sequence of
currentPage values recorded across the processed progress messages is
monotonically non-decreasing. -/
theorem currentPage_monotone (pages : List Page) :
    List.Chain' (· ≤ ·)
      ((List.scanl mstep readyState (workerTrace pages)).map
        (fun st => st.currentPage.getD 0)) := by
  unfold workerTrace
  rw [List.scanl_cons]
  simp only [List.singleton_append, List.map_cons]
  refine List.chain'_cons'.mpr ⟨?_, ?_⟩
  · intro h hh
    simp [List.head?_map, head_of_scanl] at hh
    subst hh
    simp [mstep_info, readyState]
  · refine chain_currentPage_workerRun pages 1 pages.length "" _ ?_
    simp [mstep_info, readyState]

/-- C6: once totalPages has been set by the first pageCount message of
the worker trace, every later state of the session carries that same
value, whatever later messages of the trace are processed. -/
theorem totalPages_immutable (pages : List Page) :
    ∀ s' ∈ (List.scanl mstep readyState (workerTrace pages)).tail,
      s'.totalPages = some pages.length := by
  unfold workerTrace
  rw [List.scanl_cons]
  simp only [List.singleton_append, List.tail_cons]
  refine totalPages_scanl_workerRun pages 1 pages.length "" _ ?_
  rw [mstep_info]

/-- Witness for C6 at a one-page document: the state right after the
pageCount message reports one total page. -/
theorem totalPages_immutable_witness :
    ((List.scanl mstep readyState (workerTrace [["a"]])).tail.getD 0
      initialState).totalPages = some 1 :=
  totalPages_immutable [["a"]] _ (by decide)

/-- C3: a session whose worker never reports a page count fails with
the preparation timeout exactly once (one firing within any run of at
least 32 seconds), and no event trace whatsoever can make the timeout
fire a second time. -/
theorem preparation_timeout_exactly_once :
    (∀ n, 32 ≤ n → fireCount readyState (List.replicate n Event.second) = 1)
    ∧ ∀ es : List Event, fireCount readyState es ≤ 1 := by
  constructor
  · intro n hn
    obtain ⟨k, rfl⟩ : ∃ k, n = 32 + k := ⟨n - 32, by omega⟩
    rw [List.replicate_add, fireCount_append, fireCount_ready_32,
      fireCount_zero_of_notLoading _ _ after32_notLoading]
  · intro es
    exact fireCount_le_one es readyState

/-- Witness for C3: 32 silent seconds fire the timeout exactly once. -/
theorem preparation_timeout_exactly_once_witness :
    fireCount readyState (List.replicate 32 Event.second) = 1
      ∧ fireCount readyState [Event.msg .malformed] ≤ 1 :=
  ⟨preparation_timeout_exactly_once.1 32 (by norm_num),
   preparation_timeout_exactly_once.2 [Event.msg .malformed]⟩

/-- C7: a 10-page document with the worker's batch size 3 flushes
exactly after pages 3, 6 and 9, plus a final flush at page 10; the
final assembled text is non-empty and the session reports 10 total
pages. -/
theorem ten_page_batch3 (pages : List Page) (h : pages.length = 10) :
    (List.range' 1 10).filter (fun j => emitsFlush j 10) = [3, 6, 9, 10]
    ∧ chunkFlags (workerTrace pages) = [false, false, false, true]
    ∧ (chunkedFinal pages).extractedText ≠ ""
    ∧ (chunkedFinal pages).totalPages = some 10 := by
  refine ⟨by decide, ?_, ?_, ?_⟩
  · unfold workerTrace
    rw [chunkFlags_cons_info, chunkFlags_workerRun, h]
    decide
  · rw [chunkedFinal_extractedText]
    refine fullBatchText_ne_empty pages ?_
    intro hn
    rw [hn] at h
    simp at h
  · unfold chunkedFinal workerTrace
    rw [List.foldl_cons, ← h]
    refine totalPages_foldl_workerRun pages 1 pages.length "" _ ?_
    rw [mstep_info]

/-- Witness for C7 at a concrete 10-page document. -/
theorem ten_page_batch3_witness :
    chunkFlags (workerTrace (List.replicate 10 ["pg"])) = [false, false, false, true]
      ∧ (chunkedFinal (List.replicate 10 ["pg"])).totalPages = some 10 :=
  ⟨(ten_page_batch3 (List.replicate 10 ["pg"]) (by decide)).2.1,
   (ten_page_batch3 (List.replicate 10 ["pg"]) (by decide)).2.2.2⟩

end WebAgent

namespace WebAgent

/-- Counterexample to C2 as stated: the well-formed payload with the
unknown tag bogus is processed without any error result — the state is
returned unchanged, its error cell still empty — instead of yielding a
ProtocolViolation. -/
theorem unknown_tag_counterexample :
    handleWebViewMessage (.json "bogus" none none none none none) readyState
      = readyState
    ∧ readyState.error = none := ⟨rfl, rfl⟩

/-- C2 amended: decoding is total over the message set — a payload that
fails JSON parsing sets the generic extraction error and tears the
session down, while a well-formed payload with an unknown tag is
silently ignored (the state is unchanged, and no error is raised). -/
theorem decode_total_amended (s : ScreenState) :
    ((handleWebViewMessage .malformed s).error
        = some "Failed to extract text from PDF."
      ∧ (handleWebViewMessage .malformed s).showWebView = false
      ∧ (handleWebViewMessage .malformed s).isLoading = false)
    ∧ ∀ (tag : String) (tp cp : Option Nat) (tx : Option String)
        (fin : Option Bool) (er : Option String),
        tag ≠ "pdfInfo" → tag ≠ "pdfProgress" → tag ≠ "pdfPartialText" →
        tag ≠ "pdfText" → tag ≠ "pdfError" →
        handleWebViewMessage (.json tag tp cp tx fin er) s = s := by
  refine ⟨⟨rfl, rfl, rfl⟩, ?_⟩
  intro tag tp cp tx fin er h1 h2 h3 h4 h5
  simp [handleWebViewMessage, h1, h2, h3, h4, h5]

/-- Witness for the amended C2 at the concrete unknown tag bogus. -/
theorem decode_total_amended_witness :
    handleWebViewMessage (.json "bogus" none none none none none) initialState
      = initialState :=
  (decode_total_amended initialState).2 "bogus" none none none none none
    (by decide) (by decide) (by decide) (by decide) (by decide)

/-- Counterexample to C4 as stated: with a session active for pdfDoc
(loading, worker shown, text "hello " accumulated), a second
extractText call for the same document is not rejected — no error of
any kind is produced — and it wipes the first session's accumulated
text while re-spawning the worker. -/
theorem second_start_counterexample :
    (handleWebViewMessage
        (.json "pdfPartialText" none none (some "hello ") (some false) none)
        (extractText pdfDoc (Except.ok "") initialState)).extractedText = "hello "
    ∧ (extractText pdfDoc (Except.ok "")
        (handleWebViewMessage
          (.json "pdfPartialText" none none (some "hello ") (some false) none)
          (extractText pdfDoc (Except.ok "") initialState))).error = none
    ∧ (extractText pdfDoc (Except.ok "")
        (handleWebViewMessage
          (.json "pdfPartialText" none none (some "hello ") (some false) none)
          (extractText pdfDoc (Except.ok "") initialState))).extractedText = ""
    ∧ (extractText pdfDoc (Except.ok "")
        (handleWebViewMessage
          (.json "pdfPartialText" none none (some "hello ") (some false) none)
          (extractText pdfDoc (Except.ok "") initialState))).showWebView = true := by
  decide

/-- C4 amended: extractText defines no AlreadyInProgress rejection; a
second call while a session is active simply resets the session cells
(text, pages, error) and starts a fresh worker session for the
document, whatever the prior state was.  Re-entry is discouraged only
by the UI disabling the button while loading. -/
theorem second_start_restarts (s : ScreenState) (doc : Document)
    (readResult : Except String String) (h : doc.mimeType = "application/pdf") :
    (extractText doc readResult s).error = none
    ∧ (extractText doc readResult s).extractedText = ""
    ∧ (extractText doc readResult s).currentPage = some 0
    ∧ (extractText doc readResult s).totalPages = some 0
    ∧ (extractText doc readResult s).isLoading = true
    ∧ (extractText doc readResult s).showWebView = true
    ∧ (extractText doc readResult s).pdfUri = some doc.uri := by
  simp [extractText, extractTextUpds, h, applyUpd]

/-- Witness for the amended C4, starting from a state with an active
session. -/
theorem second_start_restarts_witness :
    (extractText pdfDoc (Except.ok "") readyState).error = none
    ∧ (extractText pdfDoc (Except.ok "") readyState).extractedText = ""
    ∧ (extractText pdfDoc (Except.ok "") readyState).currentPage = some 0
    ∧ (extractText pdfDoc (Except.ok "") readyState).totalPages = some 0
    ∧ (extractText pdfDoc (Except.ok "") readyState).isLoading = true
    ∧ (extractText pdfDoc (Except.ok "") readyState).showWebView = true
    ∧ (extractText pdfDoc (Except.ok "") readyState).pdfUri = some "file.pdf" :=
  second_start_restarts readyState pdfDoc (Except.ok "") rfl

end WebAgent

namespace WebAgent

/-- C8: a plain-text document is read synchronously — the session
resolves to the file's full content with loading cleared and no error,
the update sequence contains no worker-related setter, and no state
along the way ever shows the WebView worker (no Preparing state). -/
theorem plaintext_sync_completed (s : ScreenState) (doc : Document)
    (content : String) (h : doc.mimeType = "text/plain")
    (hw : s.showWebView = false) :
    (∀ s' ∈ extractStates doc (Except.ok content) s, s'.showWebView = false)
    ∧ (extractTextUpds doc (Except.ok content)).all
        (fun u => match u with
          | .setShowWebView _ => false
          | .setPdfUri _ => false
          | _ => true) = true
    ∧ (extractText doc (Except.ok content) s).extractedText = content
    ∧ (extractText doc (Except.ok content) s).isLoading = false
    ∧ (extractText doc (Except.ok content) s).error = none := by
  have hupd : extractTextUpds doc (Except.ok content)
      = [Upd.setExtractedText "", Upd.setCurrentPage (some 0),
         Upd.setTotalPages (some 0), Upd.setError none,
         Upd.setIsLoading true, Upd.setExtractedText content,
         Upd.setIsLoading false] := by
    simp [extractTextUpds, extractTextFromTxtUpds, h]
  refine ⟨?_, ?_, ?_, ?_, ?_⟩
  · intro s' hs'
    simp only [extractStates, hupd, List.scanl_cons, List.scanl_nil,
      List.singleton_append, List.mem_cons, List.mem_singleton,
      List.mem_nil_iff, or_false] at hs'
    rcases hs' with rfl | rfl | rfl | rfl | rfl | rfl | rfl | rfl <;>
      simp [applyUpd, hw]
  · rw [hupd]; rfl
  · simp [extractText, hupd, applyUpd]
  · simp [extractText, hupd, applyUpd]
  · simp [extractText, hupd, applyUpd]

/-- Witness for C8: a concrete text file resolves to its content and no
intermediate state shows the worker. -/
theorem plaintext_sync_completed_witness :
    (extractText txtDoc (Except.ok "hello") initialState).extractedText = "hello"
    ∧ ((extractStates txtDoc (Except.ok "hello") initialState).getD 4
        readyState).showWebView = false :=
  ⟨(plaintext_sync_completed initialState txtDoc "hello" rfl rfl).2.2.1,
   (plaintext_sync_completed initialState txtDoc "hello" rfl rfl).1 _ (by decide)⟩

/-- C9: a document that is neither PDF nor plain text fails immediately
with the unsupported-type error — no state along the call touches the
worker (showWebView, pdfUri and isLoading keep their prior values) and
no text is produced; likewise extractTextFromDocument rejects any
non-.pdf uri before doing anything. -/
theorem unsupported_fails_fast (s : ScreenState) (doc : Document)
    (readResult : Except String String)
    (h1 : doc.mimeType ≠ "application/pdf") (h2 : doc.mimeType ≠ "text/plain") :
    (extractText doc readResult s).error
        = some ("Unsupported file type: " ++ doc.mimeType)
    ∧ (∀ s' ∈ extractStates doc readResult s, s'.showWebView = s.showWebView)
    ∧ (extractText doc readResult s).isLoading = s.isLoading
    ∧ (extractText doc readResult s).pdfUri = s.pdfUri
    ∧ (extractText doc readResult s).extractedText = ""
    ∧ ∀ (uri : String) (pdfResult : Except String String),
        jsEndsWith (jsToLower uri) ".pdf" = false →
        extractTextFromDocument uri pdfResult
          = Except.error
              "Unsupported document type. Only PDF files are currently supported." := by
  have hupd : extractTextUpds doc readResult
      = [Upd.setExtractedText "", Upd.setCurrentPage (some 0),
         Upd.setTotalPages (some 0), Upd.setError none,
         Upd.setError (some ("Unsupported file type: " ++ doc.mimeType))] := by
    simp [extractTextUpds, h1, h2]
  refine ⟨?_, ?_, ?_, ?_, ?_, ?_⟩
  · simp [extractText, hupd, applyUpd]
  · intro s' hs'
    simp only [extractStates, hupd, List.scanl_cons, List.scanl_nil,
      List.singleton_append, List.mem_cons, List.mem_singleton,
      List.mem_nil_iff, or_false] at hs'
    rcases hs' with rfl | rfl | rfl | rfl | rfl | rfl <;> simp [applyUpd]
  · simp [extractText, hupd, applyUpd]
  · simp [extractText, hupd, applyUpd]
  · simp [extractText, hupd, applyUpd]
  · intro uri pdfResult hend
    simp [extractTextFromDocument, hend]

/-- Witness for C9 at a concrete unsupported document and uri. -/
theorem unsupported_fails_fast_witness :
    (extractText ⟨"slides.ppt", "application/vnd.ms-powerpoint", "slides.ppt", 5⟩
        (Except.ok "") initialState).error
      = some "Unsupported file type: application/vnd.ms-powerpoint"
    ∧ extractTextFromDocument "slides.ppt" (Except.ok "")
      = Except.error
          "Unsupported document type. Only PDF files are currently supported." :=
  ⟨(unsupported_fails_fast initialState
      ⟨"slides.ppt", "application/vnd.ms-powerpoint", "slides.ppt", 5⟩
      (Except.ok "") (by decide) (by decide)).1,
   (unsupported_fails_fast initialState
      ⟨"slides.ppt", "application/vnd.ms-powerpoint", "slides.ppt", 5⟩
      (Except.ok "") (by decide) (by decide)).2.2.2.2.2 "slides.ppt"
      (Except.ok "") (by decide)⟩

/-- C10: after a processCommand call the in-memory command cache holds
at most 100 entries; a lookup matches by case-insensitive equality of
the full input string; and on an insertion the retained cache is a
suffix of the appended list, so only the most recent entries remain. -/
theorem command_cache_invariant {α : Type} (cache : List (CachedCommand α))
    (input : String) (result : α) (now : Nat) (h : cache.length ≤ 100) :
    (processCommandCache cache input result now).length ≤ 100
    ∧ (∀ s t : String, jsToLower s = jsToLower t →
        cacheLookup cache s = cacheLookup cache t)
    ∧ (cacheLookup cache input = none →
        List.IsSuffix (processCommandCache cache input result now)
          (cache ++ [⟨input, result, now⟩])) := by
  refine ⟨?_, ?_, ?_⟩
  · unfold processCommandCache
    cases hl : cacheLookup cache input with
    | some e => simpa using h
    | none =>
        by_cases hc : (cache ++ [(⟨input, result, now⟩ : CachedCommand α)]).length > 100
        · simp only [hc, if_true, List.length_drop]
          omega
        · simp only [hc, if_false]
          omega
  · intro s t hst
    unfold cacheLookup
    rw [hst]
  · intro hl
    unfold processCommandCache
    rw [hl]
    by_cases hc : (cache ++ [(⟨input, result, now⟩ : CachedCommand α)]).length > 100
    · simp only [hc, if_true]
      exact List.drop_suffix _ _
    · simp only [hc, if_false]
      exact List.suffix_refl _

/-- Witness for C10 at a concrete singleton cache. -/
theorem command_cache_invariant_witness :
    (processCommandCache ([⟨"Go Home", "nav", 0⟩] : List (CachedCommand String))
        "open a.com" "nav2" 1).length ≤ 100
    ∧ cacheLookup ([⟨"Go Home", "nav", 0⟩] : List (CachedCommand String)) "GO HOME"
        = cacheLookup ([⟨"Go Home", "nav", 0⟩] : List (CachedCommand String)) "go home" :=
  ⟨(command_cache_invariant [⟨"Go Home", "nav", 0⟩] "open a.com" "nav2" 1
      (by decide)).1,
   (command_cache_invariant [⟨"Go Home", "nav", 0⟩] "open a.com" "nav2" 1
      (by decide)).2.1 "GO HOME" "go home" (by decide)⟩

end WebAgent
